import Mathlib

/-!
Shallow embedding of the working-copy metadata engine in
`src/subversion/libsvn_wc/wc_db.c`, sufficient to settle the frozen claims
about its specification.  One wcroot is modelled; the three layer tables
(BASE_NODE, WORKING_NODE, ACTUAL_NODE) and the WC_LOCK table are finite maps
keyed by the local relpath, represented as the list of path segments
(`[]` is the wcroot itself).  Prepared-statement effects whose SQL text lives
in `wc-queries.sql` (not part of this source slice) are modelled from the
spec and marked as such in their doc comments.  Property blobs are kept
opaque (`List Nat`), exactly as the C code passes them through verbatim.
-/

namespace WcDb

/-- The `svn_wc__db_status_t` enumeration (wc_db.h).  The DB `presence`
columns hold only the first six values (see `presence_map` in wc_db.c);
`read_info` additionally produces the derived statuses. -/
inductive Status where
  | normal
  | absent
  | excluded
  | notPresent
  | incomplete
  | baseDeleted
  | added
  | deleted
  | obstructed
  | obstructedAdd
  | obstructedDelete
  deriving DecidableEq, Repr

/-- The `svn_wc__db_kind_t` enumeration (see `kind_map` in wc_db.c). -/
inductive Kind where
  | file
  | dir
  | symlink
  | subdir
  | unknown
  deriving DecidableEq, Repr

/-- Checksum kinds (`svn_checksum_kind_t`). -/
inductive ChecksumKind where
  | md5
  | sha1
  deriving DecidableEq, Repr

/-- A cryptographic checksum: a kind plus the lowercase hex digest. -/
structure Checksum where
  kind : ChecksumKind
  digest : String
  deriving DecidableEq, Repr

/-- Error kinds surfaced by the operations modelled here.  `notImplemented`
stands for the `NOT_IMPLEMENTED()` malfunction, `assertionFail` for a failed
`SVN_ERR_ASSERT`, `fsError` for a filesystem-level failure (failed open,
rename of a missing file), and `crossDb` marks the places where the C code
would walk to a different per-directory database (outside this single-wcroot
model). -/
inductive Err where
  | wcCorrupt
  | wcPathNotFound
  | wcLocked
  | wcNotWorkingCopy
  | badChecksumKind
  | wcDbError
  | notImplemented
  | assertionFail
  | fsError
  | crossDb
  deriving DecidableEq, Repr

/-- A local relpath, as its list of path segments; `[]` is the wcroot. -/
abbrev Relpath := List String

/-- An opaque serialized blob (properties skeleton, dav cache, ...). -/
abbrev Blob := List Nat

/-- Serialized tree-conflict data: a map basename -> descriptor, the
descriptor kept opaque.  (The C code stores this serialized in the
`tree_conflict_data` text column of the parent's ACTUAL row.) -/
abbrev TCMap := List (String × Nat)

/-- `apr_hash_set` semantics on a `TCMap`: a `none` value removes the key,
a `some` value replaces any existing entry. -/
def tcSet (m : TCMap) (k : String) : Option Nat → TCMap
  | none => m.filter (fun e => e.1 ≠ k)
  | some v => (k, v) :: m.filter (fun e => e.1 ≠ k)

/-- A BASE_NODE row (columns as read by `STMT_SELECT_BASE_NODE`). -/
structure BaseNode where
  presence : Status
  kind : Kind
  reposId : Option Nat
  reposRelpath : Option Relpath
  parentRelpath : Option Relpath
  revision : Int
  props : Option Blob
  changedRev : Int
  changedDate : Option Int
  changedAuthor : Option String
  depth : Option String
  checksum : Option Checksum
  translatedSize : Option Int
  target : Option String
  davCache : Option Blob
  deriving DecidableEq, Repr

/-- A WORKING_NODE row (columns as read by `STMT_SELECT_WORKING_NODE`). -/
structure WorkingNode where
  presence : Status
  kind : Kind
  checksum : Option Checksum
  translatedSize : Option Int
  changedRev : Int
  changedDate : Int
  changedAuthor : Option String
  depth : Option String
  target : Option String
  copyfromReposId : Option Nat
  copyfromRelpath : Option Relpath
  copyfromRevision : Option Int
  props : Option Blob
  deriving DecidableEq, Repr

/-- An ACTUAL_NODE row (columns as read by `STMT_SELECT_ACTUAL_NODE`:
0 prop_reject, 1 changelist, 2 conflict_old, 3 conflict_new,
4 conflict_working, 5 tree_conflict_data, 6 properties). -/
structure ActualNode where
  propReject : Option String
  changelist : Option String
  conflictOld : Option String
  conflictNew : Option String
  conflictWorking : Option String
  treeConflictData : Option TCMap
  props : Option Blob
  parentRelpath : Option Relpath
  deriving DecidableEq, Repr

/-- An ACTUAL row with every column null. -/
def ActualNode.empty : ActualNode :=
  ⟨none, none, none, none, none, none, none, none⟩

/-- The database state of one wcroot: the three layer tables plus the
WC_LOCK table, as finite maps keyed by relpath. -/
structure DbState where
  base : Relpath → Option BaseNode
  working : Relpath → Option WorkingNode
  actual : Relpath → Option ActualNode
  wcLock : Relpath → Bool

theorem DbState.ext {s t : DbState} (hb : s.base = t.base)
    (hw : s.working = t.working) (ha : s.actual = t.actual)
    (hl : s.wcLock = t.wcLock) : s = t := by
  cases s; cases t; simp_all

/-- Replace the ACTUAL row at `p`. -/
def DbState.setActual (s : DbState) (p : Relpath) (r : Option ActualNode) :
    DbState :=
  { s with actual := fun q => if q = p then r else s.actual q }

/-- Replace the BASE row at `p`. -/
def DbState.setBase (s : DbState) (p : Relpath) (r : Option BaseNode) :
    DbState :=
  { s with base := fun q => if q = p then r else s.base q }

/-- Replace the WORKING row at `p`. -/
def DbState.setWorking (s : DbState) (p : Relpath) (r : Option WorkingNode) :
    DbState :=
  { s with working := fun q => if q = p then r else s.working q }

/-- The layering invariant of the data model: an ACTUAL row may exist only
if a BASE or WORKING row exists for the same key. -/
def layerInv (s : DbState) : Prop :=
  ∀ p : Relpath, (s.actual p).isSome → (s.base p).isSome ∨ (s.working p).isSome

/-- The empty database: no rows, no locks. -/
def DbState.empty : DbState :=
  ⟨fun _ => none, fun _ => none, fun _ => none, fun _ => false⟩

/-! ## WC locks (`svn_wc__db_wclock_set`, wc_db.c)

Modelled from the spec: the SQL text of `STMT_INSERT_WC_LOCK` is in
`wc-queries.sql`, outside this source slice; per the spec the statement is a
plain insert into `WC_LOCK` keyed by `(wc_id, local_relpath)` and a
duplicate insert violates the primary key.  `svn_wc__db_wclock_set` wraps
any insert failure in an `SVN_ERR_WC_LOCKED` error and leaves the table
unchanged. -/
def wclockSet (s : DbState) (p : Relpath) : Except Err DbState :=
  if s.wcLock p then
    .error .wcLocked
  else
    .ok { s with wcLock := fun q => if q = p then true else s.wcLock q }

/-- `svn_wc__db_wclocked` (wc_db.c): report whether the row exists. -/
def wclocked (s : DbState) (p : Relpath) : Bool :=
  s.wcLock p

/-! ## `svn_wc__db_op_mark_resolved` (wc_db.c) -/

/-- Modelled from the spec: `STMT_CLEAR_TEXT_CONFLICT` clears the
text-conflict columns (`conflict_old`, `conflict_new`, `conflict_working`)
of the ACTUAL row at `p`; an update of a missing row affects nothing. -/
def clearTextConflict (s : DbState) (p : Relpath) : DbState :=
  match s.actual p with
  | none => s
  | some a =>
      s.setActual p (some { a with conflictOld := none, conflictNew := none,
                                   conflictWorking := none })

/-- Modelled from the spec: `STMT_CLEAR_PROPS_CONFLICT` clears the
`prop_reject` column of the ACTUAL row at `p`. -/
def clearPropsConflict (s : DbState) (p : Relpath) : DbState :=
  match s.actual p with
  | none => s
  | some a => s.setActual p (some { a with propReject := none })

/-- `svn_wc__db_op_mark_resolved`: asserts that tree-conflict resolution is
not requested, then runs the two clearing statements (text first, props
second, not transacted together). -/
def opMarkResolved (s : DbState) (p : Relpath)
    (resolvedText resolvedProps resolvedTree : Bool) : Except Err DbState :=
  if resolvedTree then .error .assertionFail
  else
    let s1 := if resolvedText then clearTextConflict s p else s
    let s2 := if resolvedProps then clearPropsConflict s1 p else s1
    .ok s2

/-! ## `scan_upwards_for_repos` (wc_db.c)

The loop walks from `local_relpath` towards the wcroot through BASE rows,
stripping the last path segment on each miss.  To keep the recursion
structural, the current relpath is carried REVERSED (`rev`), so stripping
`current`'s basename is taking `rev`'s tail; the node examined is
`rev.reverse`.  `suffix` accumulates the stripped basenames: the C code runs
`relpath_suffix = svn_relpath_join(relpath_suffix, current_basename)`, so
each stripped basename is appended after the previously stripped ones. -/
def scanUpwardsLoop (s : DbState) (localRelpath : Relpath) :
    Relpath → Relpath → Except Err (Nat × Relpath)
  | [], suffix =>
    match s.base ([] : Relpath).reverse with
    | none =>
        if suffix ≠ [] ∨ localRelpath = [] then .error .wcCorrupt
        else .error .wcPathNotFound
    | some row =>
        match row.reposId with
        | some rid =>
            match row.reposRelpath with
            | none => .error .assertionFail
            | some rrel => .ok (rid, rrel ++ suffix)
        | none => .error .wcCorrupt
  | b :: rest, suffix =>
    match s.base (b :: rest : Relpath).reverse with
    | none =>
        if suffix ≠ [] ∨ localRelpath = [] then .error .wcCorrupt
        else .error .wcPathNotFound
    | some row =>
        match row.reposId with
        | some rid =>
            match row.reposRelpath with
            | none => .error .assertionFail
            | some rrel => .ok (rid, rrel ++ suffix)
        | none => scanUpwardsLoop s localRelpath rest (suffix ++ [b])

/-- `scan_upwards_for_repos`: find the nearest ancestor BASE row carrying
repository columns and return its `repos_id` together with its
`repos_relpath` extended by the accumulated suffix. -/
def scanUpwardsForRepos (s : DbState) (localRelpath : Relpath) :
    Except Err (Nat × Relpath) :=
  scanUpwardsLoop s localRelpath localRelpath.reverse []

/-! ## `global_commit` (`commit_node` / `determine_repos_info`, wc_db.c) -/

/-- Arguments of `svn_wc__db_global_commit` that reach `commit_node`. -/
structure CommitArgs where
  newRevision : Int
  newDate : Int
  newAuthor : Option String
  newChecksum : Option Checksum
  newChildren : Option (List String)
  newDavCache : Option Blob
  keepChangelist : Bool

/-- `determine_repos_info`: prefer the node's own BASE repository columns;
otherwise scan from the wcroot BASE row (`local_relpath = ""`) and join the
node's name.  For `local_relpath = ""` without repository info the C code
navigates to the parent per-directory database, which is outside this
single-wcroot model (`crossDb`). -/
def determineReposInfo (s : DbState) (p : Relpath) (name : String) :
    Except Err (Nat × Relpath) :=
  match s.base p with
  | some row =>
      match row.reposId with
      | some rid =>
          match row.reposRelpath with
          | none => .error .assertionFail
          | some rrel => .ok (rid, rrel)
      | none =>
          if p = [] then .error .crossDb
          else (scanUpwardsForRepos s []).map fun pr => (pr.1, pr.2 ++ [name])
  | none =>
      if p = [] then .error .crossDb
      else (scanUpwardsForRepos s []).map fun pr => (pr.1, pr.2 ++ [name])

/-- The new node kind chosen by `commit_node`: WORKING's kind if a WORKING
row exists, else BASE's.  With neither row the C code reads a column from a
statement that produced no row; modelled as a database error. -/
def commitNewKind (s : DbState) (p : Relpath) : Except Err Kind :=
  match s.working p with
  | some w => .ok w.kind
  | none =>
      match s.base p with
      | some b => .ok b.kind
      | none => .error .wcDbError

/-- The new depth chosen by `commit_node`: only directories carry a depth,
taken from WORKING when present, else from BASE. -/
def commitDepth (s : DbState) (p : Relpath) : Option String :=
  match commitNewKind s p with
  | .error _ => none
  | .ok k =>
      if k = Kind.dir then
        match s.working p with
        | some w => w.depth
        | none => (s.base p).bind (·.depth)
      else none

/-- The `SVN_ERR_ASSERT`s of `commit_node` on the BASE repository columns:
when BASE already has a `repos_id`, the `repos_relpath` must be set too and
a commit cannot change either value. -/
def commitReposOk (s : DbState) (p : Relpath) (reposId : Nat)
    (reposRelpath : Relpath) : Bool :=
  match s.base p with
  | none => true
  | some b =>
      match b.reposId with
      | none => true
      | some rid =>
          b.reposRelpath.isSome && decide (rid = reposId) &&
            decide (b.reposRelpath = some reposRelpath)

/-- The new property blob chosen by `commit_node`: ACTUAL overrides WORKING
overrides BASE, kept as an opaque blob. -/
def commitPropBlob (s : DbState) (p : Relpath) : Option Blob :=
  ((s.actual p).bind (·.props) <|> (s.working p).bind (·.props)) <|>
    (s.base p).bind (·.props)

/-- Modelled from the spec: the SQL text of `STMT_APPLY_CHANGES_TO_BASE` is
in `wc-queries.sql`, outside this source slice.  Per the spec it upserts the
whole BASE row with `{new_rev, new_author, new_date, props, checksum, depth,
dav_cache, presence = normal}`; `commit_node` additionally binds the parent
relpath, the new kind and the repository coordinates, binds the date only
when it is positive, and leaves the symlink target unbound. -/
def applyChangesToBase (s : DbState) (p : Relpath) (newKind : Kind)
    (reposId : Nat) (reposRelpath : Relpath) (args : CommitArgs)
    (newDepth : Option String) (propBlob : Option Blob) : DbState :=
  s.setBase p (some
    { presence := .normal
      kind := newKind
      reposId := some reposId
      reposRelpath := some reposRelpath
      parentRelpath := if p = [] then none else some p.dropLast
      revision := args.newRevision
      props := propBlob
      changedRev := args.newRevision
      changedDate := if 0 < args.newDate then some args.newDate else none
      changedAuthor := args.newAuthor
      depth := newDepth
      checksum := args.newChecksum
      translatedSize := none
      target := none
      davCache := args.newDavCache })

/-- Modelled from the spec: `STMT_RESET_ACTUAL_WITH_CHANGELIST` replaces the
ACTUAL row with a minimal row retaining only the changelist (and the parent
relpath the statement binds). -/
def resetActualWithChangelist (s : DbState) (p : Relpath)
    (changelist : Option String) : DbState :=
  s.setActual p (some { ActualNode.empty with
                          changelist := changelist
                          parentRelpath := some p.dropLast })

/-- `commit_node` (wc_db.c): the per-node transactional commit sequence.
Reads BASE/WORKING/ACTUAL, determines the new kind and depth, checks the
repository assertions (including the non-`SINGLE_DB` assertion that only the
wcroot directory itself is committed as a directory), then upserts BASE,
deletes WORKING, and deletes or resets ACTUAL. -/
def commitNode (s : DbState) (p : Relpath) (reposId : Nat)
    (reposRelpath : Relpath) (args : CommitArgs) : Except Err DbState :=
  match commitNewKind s p with
  | .error e => .error e
  | .ok newKind =>
      if !commitReposOk s p reposId reposRelpath then .error .assertionFail
      else if newKind = Kind.dir ∧ p ≠ [] then .error .assertionFail
      else
        let changelist :=
          if args.keepChangelist then (s.actual p).bind (·.changelist)
          else none
        let s1 := applyChangesToBase s p newKind reposId reposRelpath args
                    (commitDepth s p) (commitPropBlob s p)
        let s2 := if (s.working p).isSome then s1.setWorking p none else s1
        let s3 :=
          match s.actual p with
          | none => s2
          | some _ =>
              if args.keepChangelist ∧ changelist ≠ none then
                resetActualWithChangelist s2 p changelist
              else s2.setActual p none
        .ok s3

/-- `svn_wc__db_global_commit` (wc_db.c): assert the revision is valid and
that children are not combined with a checksum, determine the repository
coordinates, then run `commit_node` in a transaction. -/
def globalCommit (s : DbState) (p : Relpath) (args : CommitArgs) :
    Except Err DbState :=
  if args.newRevision < 0 then .error .assertionFail
  else if args.newChecksum ≠ none ∧ args.newChildren ≠ none then
    .error .assertionFail
  else
    match determineReposInfo s p (p.getLastD "") with
    | .error e => .error e
    | .ok pr => commitNode s p pr.1 pr.2 args

/-! ## `svn_wc__db_op_set_props` (`set_props_txn`, wc_db.c) -/

/-- `set_props_txn`: try `STMT_UPDATE_ACTUAL_PROPS`; if no row was affected,
run `STMT_INSERT_ACTUAL_PROPS`, which inserts an ACTUAL row carrying only
the properties and (for non-root paths) the parent relpath.  Modelled from
the spec: the SQL text of both statements is in `wc-queries.sql`, outside
this source slice; the update sets the `properties` column of the existing
row, the insert creates a fresh row with every other column null.  No check
for an existing BASE or WORKING row is made (the C code carries the comment
asking whether one should be). -/
def setPropsTxn (s : DbState) (p : Relpath) (props : Option Blob) : DbState :=
  match s.actual p with
  | some a => s.setActual p (some { a with props := props })
  | none =>
      s.setActual p (some { ActualNode.empty with
                              props := props
                              parentRelpath :=
                                if p = [] then none else some p.dropLast })

/-- `svn_wc__db_op_set_props`: run `set_props_txn` in a transaction. -/
def opSetProps (s : DbState) (p : Relpath) (props : Option Blob) : DbState :=
  setPropsTxn s p props

/-! ## `svn_wc__db_op_set_tree_conflict` (`set_tc_txn`, wc_db.c) -/

/-- `set_tc_txn`: tree conflicts are keyed on the parent directory's ACTUAL
row.  Read the parent's `tree_conflict_data`, set or remove the entry for
the victim's basename, and rewrite (update or insert) the row — except when
removing an entry that is not there, which is skipped.  Modelled from the
spec where the statement text is concerned: `STMT_UPDATE_ACTUAL_TREE_CONFLICTS`
sets the `tree_conflict_data` column, `STMT_INSERT_ACTUAL_TREE_CONFLICTS`
inserts a row whose only non-null column is `tree_conflict_data`. -/
def setTcTxn (s : DbState) (parentRel : Relpath) (basename : String)
    (tc : Option Nat) : DbState :=
  let row := s.actual parentRel
  let conflicts := tcSet ((row.bind (·.treeConflictData)).getD []) basename tc
  if conflicts = [] ∧ row = none then s
  else
    match row with
    | some a => s.setActual parentRel
        (some { a with treeConflictData := some conflicts })
    | none => s.setActual parentRel
        (some { ActualNode.empty with treeConflictData := some conflicts })

/-- `svn_wc__db_op_set_tree_conflict`: resolve the victim's parent directory
and run `set_tc_txn` there.  For the wcroot itself the parent lies outside
this working copy (and this single-wcroot model). -/
def opSetTreeConflict (s : DbState) (p : Relpath) (tc : Option Nat) :
    Except Err DbState :=
  if h : p = [] then .error .wcNotWorkingCopy
  else .ok (setTcTxn s p.dropLast (p.getLast h) tc)

/-! ## `svn_wc__db_op_read_tree_conflict` and `svn_wc__db_read_info` -/

/-- `svn_wc__db_op_read_tree_conflict`: look the victim's basename up in the
parent directory's serialized tree-conflict map.  Walking off the top of the
working copy (the wcroot has no parent here) yields no conflict. -/
def opReadTreeConflict (s : DbState) (p : Relpath) : Option Nat :=
  if h : p = [] then none
  else
    match s.actual p.dropLast with
    | none => none
    | some a =>
        match a.treeConflictData with
        | none => none
        | some m => m.lookup (p.getLast h)

/-- The outputs of `svn_wc__db_read_info` modelled here.  The repository
URL/uuid, lock, original-copy and timestamp outputs of the C function are
not modelled; no claim mentions them. -/
structure ReadInfo where
  status : Status
  kind : Kind
  revision : Int
  changedAuthor : Option String
  changelist : Option String
  textMod : Bool
  propsMod : Bool
  baseShadowed : Bool
  conflicted : Bool
  deriving DecidableEq, Repr

/-- The status `read_info` computes when only a BASE row exists (or before a
WORKING row overrides it): BASE's presence passes through, except that
`normal` on a legacy `subdir` becomes `obstructed`. -/
def baseStatusOf (b : BaseNode) : Status :=
  if b.kind = Kind.subdir ∧ b.presence = Status.normal then .obstructed
  else b.presence

/-- The status `read_info` derives from a WORKING row's presence (after the
`SVN_ERR_ASSERT` restricting it to the four values below): `incomplete`
passes through; `not_present`/`base_deleted` become `deleted`; `normal`
becomes `added`; on a legacy `subdir` the last two become
`obstructed_delete` / `obstructed_add`. -/
def workStatusOf (w : WorkingNode) : Status :=
  if w.presence = Status.incomplete then .incomplete
  else if w.presence = Status.notPresent ∨ w.presence = Status.baseDeleted then
    if w.kind = Kind.subdir then .obstructedDelete else .deleted
  else
    if w.kind = Kind.subdir then .obstructedAdd else .added

/-- `svn_wc__db_read_info` (wc_db.c): join BASE, WORKING and ACTUAL for one
relpath.  With neither BASE nor WORKING row, an ACTUAL row is `wc_corrupt`
and no row at all is `wc_path_not_found`.  `SVN_INVALID_REVNUM` is `-1`.
The two `SVN_ERR_ASSERT`s on the presences become errors. -/
def readInfo (s : DbState) (p : Relpath) : Except Err ReadInfo :=
  match s.base p, s.working p with
  | none, none =>
      if (s.actual p).isSome then .error .wcCorrupt
      else .error .wcPathNotFound
  | mb, mw =>
      let ma := s.actual p
      let nodeKind := match mw with
        | some w => w.kind
        | none => (mb.map (·.kind)).getD Kind.unknown
      let baseAssertOk : Bool := match mb with
        | none => true
        | some b =>
            (b.presence ≠ Status.absent ∧ b.presence ≠ Status.excluded) ∨
              mw = none
      let workAssertOk : Bool := match mw with
        | none => true
        | some w =>
            w.presence = Status.normal ∨ w.presence = Status.notPresent ∨
              w.presence = Status.baseDeleted ∨
              w.presence = Status.incomplete
      if !baseAssertOk then .error .assertionFail
      else if !workAssertOk then .error .assertionFail
      else
        let status := match mw, mb with
          | some w, _ => workStatusOf w
          | none, some b => baseStatusOf b
          | none, none => Status.normal
        let conflictedAct := match ma with
          | some a =>
              a.conflictOld.isSome || a.conflictNew.isSome ||
                a.conflictWorking.isSome || a.propReject.isSome
          | none => false
        .ok
          { status := status
            kind := if nodeKind = Kind.subdir then Kind.dir else nodeKind
            revision := match mw, mb with
              | some _, _ => -1
              | none, some b => b.revision
              | none, none => -1
            changedAuthor := match mw, mb with
              | some w, _ => w.changedAuthor
              | none, some b => b.changedAuthor
              | none, none => none
            changelist := ma.bind (·.changelist)
            textMod := false
            propsMod := false
            baseShadowed := mb.isSome && mw.isSome
            conflicted :=
              conflictedAct || (opReadTreeConflict s p).isSome }

/-! ## The pristine store (wc_db.c)

`VERIFY_CHECKSUM_KIND` is defined to reject non-SHA-1 checksums with
`SVN_ERR_BAD_CHECKSUM_KIND`, but is immediately `#undef`-ined and redefined
to `((void)0)` ("not ready to enforce SHA1 yet. disable the check"), so none
of the pristine operations below examines the checksum kind. -/

/-- The filesystem-plus-table state the pristine store operates on: the
tempdir's files keyed by name, the pristine directory's files keyed by the
file name `get_pristine_fname` produces (with `SVN__SKIP_SUBDIR` that is
`<pristine-dir>/<hexdigest>`, so the key is the hex digest), and the
`PRISTINE` table rows keyed by digest with their `size` column. -/
structure StoreState where
  temps : String → Option Blob
  pristines : String → Option Blob
  rows : String → Option Nat

/-- `get_pristine_fname`: the file name of a pristine, its hex digest. -/
def pristineFname (c : Checksum) : String :=
  c.digest

/-- `svn_wc__db_pristine_read`: open the pristine file for reading; a
missing file surfaces as the stream-open failure. -/
def pristineRead (st : StoreState) (c : Checksum) : Except Err Blob :=
  match st.pristines (pristineFname c) with
  | some b => .ok b
  | none => .error .fsError

/-- `svn_wc__db_pristine_write`: `NOT_IMPLEMENTED()` (its body is compiled
out behind `#if 0`). -/
def pristineWrite (_st : StoreState) (_c : Checksum) : Except Err Blob :=
  .error .notImplemented

/-- `svn_wc__db_pristine_check`: `NOT_IMPLEMENTED()`. -/
def pristineCheck (_st : StoreState) (_c : Checksum) : Except Err Bool :=
  .error .notImplemented

/-- `svn_wc__db_pristine_repair`: `NOT_IMPLEMENTED()`. -/
def pristineRepair (_st : StoreState) (_c : Checksum) : Except Err Unit :=
  .error .notImplemented

/-- The rename step of `pristine_install`: `svn_io_file_rename` moves the
tempfile out of the tempdir to the content-addressed location. -/
def pristineRenameStep (st : StoreState) (temp : String) (c : Checksum)
    (bytes : Blob) : StoreState :=
  { st with
      temps := fun f => if f = temp then none else st.temps f
      pristines := fun f =>
        if f = pristineFname c then some bytes else st.pristines f }

/-- The insert step of `pristine_install`.  Modelled from the spec: the SQL
text of `STMT_INSERT_PRISTINE` is in `wc-queries.sql`, outside this source
slice; it inserts the `(checksum, size)` row. -/
def pristineInsertStep (st : StoreState) (c : Checksum) (size : Nat) :
    StoreState :=
  { st with rows := fun d => if d = c.digest then some size else st.rows d }

/-- `svn_wc__db_pristine_install` as a trace of states: the initial state,
the state after the rename, and the state after the row insert.  The rename
fails if the tempfile is missing; the size inserted is the `svn_io_stat`
size of the file at its final location, taken after the rename. -/
def pristineInstallTrace (st : StoreState) (temp : String) (c : Checksum) :
    Except Err (List StoreState) :=
  match st.temps temp with
  | none => .error .fsError
  | some bytes =>
      let st1 := pristineRenameStep st temp c bytes
      let st2 := pristineInsertStep st1 c bytes.length
      .ok [st, st1, st2]

/-- `svn_wc__db_pristine_install`: the final state of the trace. -/
def pristineInstall (st : StoreState) (temp : String) (c : Checksum) :
    Except Err StoreState :=
  (pristineInstallTrace st temp c).map fun l => l.getLastD st

/-- The pristine-store integrity property: every `PRISTINE` row has its
file in the pristine directory. -/
def pristineInv (st : StoreState) : Prop :=
  ∀ d : String, (st.rows d).isSome → (st.pristines d).isSome

/-! ## Helper lemmas and concrete example data -/

theorem setActual_setActual (s : DbState) (p : Relpath)
    (r1 r2 : Option ActualNode) :
    (s.setActual p r1).setActual p r2 = s.setActual p r2 := by
  refine DbState.ext rfl rfl ?_ rfl
  funext q
  by_cases h : q = p <;> simp [DbState.setActual, h]

theorem actual_setActual (s : DbState) (p : Relpath) (r : Option ActualNode) :
    (s.setActual p r).actual p = r := by
  simp [DbState.setActual]

/-- A plain BASE file row at revision 7, as checkout would create it. -/
def fileBase : BaseNode :=
  { presence := .normal, kind := .file, reposId := some 1,
    reposRelpath := some ["trunk", "a"], parentRelpath := some [],
    revision := 7, props := none, changedRev := 7, changedDate := some 0,
    changedAuthor := some "bob", depth := none, checksum := none,
    translatedSize := none, target := none, davCache := none }

/-- The wcroot's BASE directory row, carrying the repository columns. -/
def rootBase : BaseNode :=
  { fileBase with kind := .dir, reposRelpath := some ["trunk"],
                  parentRelpath := none }

/-- A BASE row with null repository columns (inheriting from the parent). -/
def noRepoBase : BaseNode :=
  { fileBase with reposId := none, reposRelpath := none }

/-- A WORKING row recording a plain local addition. -/
def addedWork : WorkingNode :=
  { presence := .normal, kind := .file, checksum := none,
    translatedSize := none, changedRev := -1, changedDate := 0,
    changedAuthor := none, depth := none, target := none,
    copyfromReposId := none, copyfromRelpath := none,
    copyfromRevision := none, props := none }

/-- A working copy holding one locally added file `f`. -/
def sWork : DbState :=
  { DbState.empty with
      working := fun q => if q = ["f"] then some addedWork else none }

/-- A working copy holding the wcroot directory and one file `a`, both with
their repository columns filled in. -/
def sBaseA : DbState :=
  { DbState.empty with
      base := fun q =>
        if q = ["a"] then some fileBase
        else if q = [] then some rootBase
        else none }

/-- A working copy where only the wcroot BASE row carries the repository
columns; `a` and `a/b` inherit them. -/
def sInherit : DbState :=
  { DbState.empty with
      base := fun q =>
        if q = ["a", "b"] then some noRepoBase
        else if q = ["a"] then some noRepoBase
        else if q = [] then some rootBase
        else none }

/-! ## C8 — idempotence of `op_mark_resolved` -/

theorem clearConflicts_idem (t : DbState) (p : Relpath) :
    clearPropsConflict (clearTextConflict
        (clearPropsConflict (clearTextConflict t p) p) p) p =
      clearPropsConflict (clearTextConflict t p) p := by
  cases h : t.actual p with
  | none =>
      simp only [clearTextConflict, clearPropsConflict, h]
  | some a =>
      simp only [clearTextConflict, clearPropsConflict, h, actual_setActual,
        setActual_setActual]

/-- C8: for every path, applying `op_mark_resolved` with
`resolved_text = true` and `resolved_props = true` twice in succession
produces exactly the same database state as applying it once. -/
theorem opMarkResolved_idempotent (s : DbState) (p : Relpath) :
    (opMarkResolved s p true true false).bind
        (fun s' => opMarkResolved s' p true true false) =
      opMarkResolved s p true true false := by
  show Except.ok (clearPropsConflict (clearTextConflict
      (clearPropsConflict (clearTextConflict s p) p) p) p) =
    Except.ok (clearPropsConflict (clearTextConflict s p) p)
  exact congrArg Except.ok (clearConflicts_idem s p)

/-! ## C9 — a second `wclock_set` fails with `wc_locked` -/

/-- C9: a successful `wclock_set(P)` followed by a second `wclock_set(P)`
makes the second call fail with the `wc_locked` error, and the `wc_lock`
row inserted by the first call remains. -/
theorem wclockSet_twice (s : DbState) (p : Relpath) (s' : DbState)
    (h : wclockSet s p = .ok s') :
    wclockSet s' p = .error .wcLocked ∧ s'.wcLock p = true := by
  unfold wclockSet at h
  by_cases hl : s.wcLock p
  · simp [hl] at h
  · simp only [hl, if_false, Except.ok.injEq, Bool.false_eq_true] at h
    subst h
    constructor
    · unfold wclockSet
      simp
    · simp

theorem wclockSet_twice_witness :
    wclockSet { DbState.empty with
        wcLock := fun q => if q = ["d"] then true
                           else DbState.empty.wcLock q } ["d"] =
        .error .wcLocked ∧
      ({ DbState.empty with
          wcLock := fun q => if q = ["d"] then true
                             else DbState.empty.wcLock q } : DbState).wcLock
        ["d"] = true :=
  wclockSet_twice DbState.empty ["d"] _ rfl

/-! ## C10 — `read_info` never reports text or property modifications -/

/-- C10: whenever `read_info` succeeds, it reports `text_mod = false` and
`props_mod = false` unconditionally — the modification checks are
unimplemented placeholders, so no local modification is observable through
these outputs. -/
theorem readInfo_mods_false (s : DbState) (p : Relpath) (info : ReadInfo)
    (h : readInfo s p = .ok info) :
    info.textMod = false ∧ info.propsMod = false := by
  unfold readInfo at h
  split at h
  · split at h <;> cases h
  · dsimp only at h
    split at h
    · cases h
    · split at h
      · cases h
      · cases h
        exact ⟨rfl, rfl⟩

theorem readInfo_mods_false_witness :
    ({ status := .added, kind := .file, revision := -1,
       changedAuthor := none, changelist := none, textMod := false,
       propsMod := false, baseShadowed := false,
       conflicted := false } : ReadInfo).textMod = false ∧
      ({ status := .added, kind := .file, revision := -1,
         changedAuthor := none, changelist := none, textMod := false,
         propsMod := false, baseShadowed := false,
         conflicted := false } : ReadInfo).propsMod = false :=
  readInfo_mods_false sWork ["f"] _ rfl

/-! ## C5 — `read_info` error cases -/

/-- C5: for every path, `read_info` fails with `wc_corrupt` when an ACTUAL
row exists but neither a BASE nor a WORKING row does, and with
`wc_path_not_found` when no row exists in any of the three tables; in both
cases no result is produced. -/
theorem readInfo_missing_rows (s : DbState) (p : Relpath)
    (hb : s.base p = none) (hw : s.working p = none) :
    readInfo s p =
      .error (if (s.actual p).isSome then .wcCorrupt else .wcPathNotFound) := by
  unfold readInfo
  rw [hb, hw]
  dsimp only
  split <;> simp_all

theorem readInfo_missing_rows_witness :
    readInfo DbState.empty ["x"] =
      .error (if (DbState.empty.actual ["x"]).isSome then .wcCorrupt
              else .wcPathNotFound) :=
  readInfo_missing_rows DbState.empty ["x"] rfl rfl

/-! ## C2 — the layering invariant under `op_set_props` / `op_set_tree_conflict` -/

/-- C2 counterexample: on an empty database, `op_set_props` inserts an
ACTUAL row for a path that has neither a BASE nor a WORKING row (the C code
only carries the comment asking whether it should check), so the layering
invariant is not preserved by every public operation. -/
theorem opSetProps_layering_counterexample :
    ((opSetProps DbState.empty ["x"] (some [1])).actual ["x"]).isSome = true ∧
      (opSetProps DbState.empty ["x"] (some [1])).base ["x"] = none ∧
      (opSetProps DbState.empty ["x"] (some [1])).working ["x"] = none ∧
      layerInv DbState.empty ∧
      ¬ layerInv (opSetProps DbState.empty ["x"] (some [1])) := by
  refine ⟨rfl, rfl, rfl, ?_, ?_⟩
  · intro p h
    simp [DbState.empty] at h
  · intro hinv
    rcases hinv ["x"] rfl with h | h <;> simp [opSetProps, setPropsTxn,
      DbState.setActual, DbState.empty] at h

theorem layerInv_setActual (s : DbState) (k : Relpath) (r : Option ActualNode)
    (hinv : layerInv s)
    (hk : (s.base k).isSome ∨ (s.working k).isSome) :
    layerInv (s.setActual k r) := by
  intro q hq
  simp only [DbState.setActual] at hq ⊢
  by_cases h : q = k
  · subst h
    exact hk
  · rw [if_neg h] at hq
    exact hinv q hq

/-- C2 as amended: `op_set_props` updates the ACTUAL row if one exists and
otherwise inserts one without checking for a BASE or WORKING row, and
`op_set_tree_conflict` does the same on the victim's parent; consequently
the layering invariant is preserved exactly when the touched path — the
path itself for `op_set_props`, the victim's parent for
`op_set_tree_conflict` — already has a BASE or WORKING row. -/
theorem layering_preserved_on_existing_rows (s : DbState) (p q : Relpath)
    (props : Option Blob) (tc : Option Nat) (s' : DbState)
    (hinv : layerInv s)
    (hp : (s.base p).isSome ∨ (s.working p).isSome)
    (hq : (s.base q.dropLast).isSome ∨ (s.working q.dropLast).isSome)
    (htc : opSetTreeConflict s q tc = .ok s') :
    layerInv (opSetProps s p props) ∧ layerInv s' := by
  constructor
  · unfold opSetProps setPropsTxn
    split <;> exact layerInv_setActual s p _ hinv hp
  · unfold opSetTreeConflict at htc
    split at htc
    · cases htc
    · rw [Except.ok.injEq] at htc
      subst htc
      unfold setTcTxn
      dsimp only
      split
      · exact hinv
      · split <;> exact layerInv_setActual s q.dropLast _ hinv hq

theorem layering_preserved_witness :
    layerInv (opSetProps sBaseA ["a"] (some [2])) ∧
      layerInv (setTcTxn sBaseA ["a"] "b" (some 5)) :=
  layering_preserved_on_existing_rows sBaseA ["a"] ["a", "b"] (some [2])
    (some 5) _
    (fun r h => by simp [sBaseA, DbState.empty] at h)
    (Or.inl rfl) (Or.inl rfl) rfl

/-! ## C3 — the pristine checksum-kind check is disabled -/

/-- A pristine store holding a tempfile `tmp1` and a pristine whose digest
is `ff`, with an empty `PRISTINE` table. -/
def stPristine : StoreState :=
  { temps := fun f => if f = "tmp1" then some [1, 2, 3] else none,
    pristines := fun f => if f = "ff" then some [9] else none,
    rows := fun _ => none }

/-- C3 counterexample: `pristine_read` given an MD5 checksum succeeds (it
never fails with `bad_checksum_kind`), because `VERIFY_CHECKSUM_KIND` is
redefined to a no-op right after its definition. -/
theorem pristine_kind_counterexample :
    (⟨ChecksumKind.md5, "ff"⟩ : Checksum).kind ≠ ChecksumKind.sha1 ∧
      pristineRead stPristine ⟨ChecksumKind.md5, "ff"⟩ = .ok [9] ∧
      pristineRead stPristine ⟨ChecksumKind.md5, "ff"⟩ ≠
        .error .badChecksumKind := by
  refine ⟨by decide, rfl, ?_⟩
  intro h
  rw [show pristineRead stPristine ⟨ChecksumKind.md5, "ff"⟩ = .ok [9]
        from rfl] at h
  cases h

/-- C3 as amended: the checksum-kind check is compiled out
(`VERIFY_CHECKSUM_KIND` is `#undef`-ined and redefined to `((void)0)`), so
no pristine-store operation fails with `bad_checksum_kind` for any checksum
kind: `pristine_read` and `pristine_install` proceed regardless of the
kind, while `pristine_write`, `pristine_check` and `pristine_repair` fail
with the not-implemented malfunction for every checksum. -/
theorem pristine_kind_never_checked (st : StoreState) (temp : String)
    (c : Checksum) :
    pristineRead st c ≠ .error .badChecksumKind ∧
      pristineInstallTrace st temp c ≠ .error .badChecksumKind ∧
      pristineWrite st c = .error .notImplemented ∧
      pristineCheck st c = .error .notImplemented ∧
      pristineRepair st c = .error .notImplemented := by
  refine ⟨?_, ?_, rfl, rfl, rfl⟩
  · unfold pristineRead
    split <;> simp
  · unfold pristineInstallTrace
    split <;> simp

/-! ## C7 — ordering and exactness of `pristine_install` -/

/-- C7: `pristine_install` renames the tempfile into its content-addressed
location strictly before inserting the `PRISTINE` row (after the rename the
table is still unchanged), the inserted row records the exact byte count of
the installed file, and no intermediate state of the trace has a pristine
row without its file. -/
theorem pristineInstall_order (st : StoreState) (temp : String)
    (c : Checksum) (bytes : Blob) (l : List StoreState)
    (hinv : pristineInv st)
    (hbytes : st.temps temp = some bytes)
    (h : pristineInstallTrace st temp c = .ok l) :
    l = [st, pristineRenameStep st temp c bytes,
         pristineInsertStep (pristineRenameStep st temp c bytes) c
           bytes.length] ∧
      pristineInv (pristineRenameStep st temp c bytes) ∧
      pristineInv (pristineInsertStep (pristineRenameStep st temp c bytes) c
        bytes.length) ∧
      (pristineRenameStep st temp c bytes).rows c.digest = st.rows c.digest ∧
      (pristineInsertStep (pristineRenameStep st temp c bytes) c
          bytes.length).rows c.digest = some bytes.length ∧
      (pristineInsertStep (pristineRenameStep st temp c bytes) c
          bytes.length).pristines (pristineFname c) = some bytes := by
  have hinv1 : pristineInv (pristineRenameStep st temp c bytes) := by
    intro d hd
    simp only [pristineRenameStep] at hd ⊢
    by_cases hdc : d = pristineFname c
    · simp [hdc]
    · rw [if_neg hdc]
      exact hinv d hd
  have hinv2 : pristineInv (pristineInsertStep
      (pristineRenameStep st temp c bytes) c bytes.length) := by
    intro d hd
    simp only [pristineInsertStep, pristineRenameStep] at hd ⊢
    by_cases hdc : d = c.digest
    · simp [hdc, pristineFname]
    · rw [if_neg hdc] at hd
      by_cases hdf : d = pristineFname c
      · simp [hdf]
      · rw [if_neg hdf]
        exact hinv d hd
  unfold pristineInstallTrace at h
  rw [hbytes] at h
  rw [Except.ok.injEq] at h
  subst h
  refine ⟨rfl, hinv1, hinv2, rfl, ?_, ?_⟩
  · simp [pristineInsertStep]
  · simp [pristineInsertStep, pristineRenameStep]

theorem pristineInstall_order_witness :
    [stPristine,
        pristineRenameStep stPristine "tmp1" ⟨ChecksumKind.sha1, "aa"⟩
          [1, 2, 3],
        pristineInsertStep
          (pristineRenameStep stPristine "tmp1" ⟨ChecksumKind.sha1, "aa"⟩
            [1, 2, 3]) ⟨ChecksumKind.sha1, "aa"⟩ 3] =
      [stPristine,
        pristineRenameStep stPristine "tmp1" ⟨ChecksumKind.sha1, "aa"⟩
          [1, 2, 3],
        pristineInsertStep
          (pristineRenameStep stPristine "tmp1" ⟨ChecksumKind.sha1, "aa"⟩
            [1, 2, 3]) ⟨ChecksumKind.sha1, "aa"⟩ ([1, 2, 3] : Blob).length] ∧
      pristineInv (pristineRenameStep stPristine "tmp1"
        ⟨ChecksumKind.sha1, "aa"⟩ [1, 2, 3]) ∧
      pristineInv (pristineInsertStep
        (pristineRenameStep stPristine "tmp1" ⟨ChecksumKind.sha1, "aa"⟩
          [1, 2, 3]) ⟨ChecksumKind.sha1, "aa"⟩ ([1, 2, 3] : Blob).length) ∧
      (pristineRenameStep stPristine "tmp1" ⟨ChecksumKind.sha1, "aa"⟩
          [1, 2, 3]).rows "aa" = stPristine.rows "aa" ∧
      (pristineInsertStep
          (pristineRenameStep stPristine "tmp1" ⟨ChecksumKind.sha1, "aa"⟩
            [1, 2, 3]) ⟨ChecksumKind.sha1, "aa"⟩
          ([1, 2, 3] : Blob).length).rows "aa" =
        some ([1, 2, 3] : Blob).length ∧
      (pristineInsertStep
          (pristineRenameStep stPristine "tmp1" ⟨ChecksumKind.sha1, "aa"⟩
            [1, 2, 3]) ⟨ChecksumKind.sha1, "aa"⟩
          ([1, 2, 3] : Blob).length).pristines
          (pristineFname ⟨ChecksumKind.sha1, "aa"⟩) = some [1, 2, 3] :=
  pristineInstall_order stPristine "tmp1" ⟨ChecksumKind.sha1, "aa"⟩ [1, 2, 3]
    _ (fun d hd => by simp [stPristine] at hd) rfl rfl

/-! ## C4 — `read_info` status for paths with a WORKING row -/

/-- C4: whenever `read_info` succeeds on a path whose WORKING row is
present, the reported status derives from WORKING's presence: `normal`
yields `added`, `not_present`/`base_deleted` yield `deleted`, `incomplete`
yields `incomplete`; and when the node kind is the legacy `subdir`, `added`
becomes `obstructed_add` and `deleted` becomes `obstructed_delete`. -/
theorem readInfo_working_status (s : DbState) (p : Relpath)
    (w : WorkingNode) (info : ReadInfo)
    (hw : s.working p = some w)
    (h : readInfo s p = .ok info) :
    (w.presence = Status.normal →
      info.status = if w.kind = Kind.subdir then Status.obstructedAdd
                    else Status.added) ∧
      ((w.presence = Status.notPresent ∨ w.presence = Status.baseDeleted) →
        info.status = if w.kind = Kind.subdir then Status.obstructedDelete
                      else Status.deleted) ∧
      (w.presence = Status.incomplete → info.status = Status.incomplete) := by
  unfold readInfo at h
  split at h
  · simp_all
  · dsimp only at h
    rw [hw] at h
    dsimp only at h
    split at h
    · cases h
    · split at h
      · cases h
      · cases h
        refine ⟨?_, ?_, ?_⟩
        · intro hp
          simp [workStatusOf, hp]
        · intro hp
          rcases hp with hp | hp <;> simp [workStatusOf, hp]
        · intro hp
          simp [workStatusOf, hp]

theorem readInfo_working_status_witness :
    (addedWork.presence = Status.normal →
      ({ status := .added, kind := .file, revision := -1,
         changedAuthor := none, changelist := none, textMod := false,
         propsMod := false, baseShadowed := false,
         conflicted := false } : ReadInfo).status =
        if addedWork.kind = Kind.subdir then Status.obstructedAdd
        else Status.added) ∧
      ((addedWork.presence = Status.notPresent ∨
          addedWork.presence = Status.baseDeleted) →
        ({ status := .added, kind := .file, revision := -1,
           changedAuthor := none, changelist := none, textMod := false,
           propsMod := false, baseShadowed := false,
           conflicted := false } : ReadInfo).status =
          if addedWork.kind = Kind.subdir then Status.obstructedDelete
          else Status.deleted) ∧
      (addedWork.presence = Status.incomplete →
        ({ status := .added, kind := .file, revision := -1,
           changedAuthor := none, changelist := none, textMod := false,
           propsMod := false, baseShadowed := false,
           conflicted := false } : ReadInfo).status = Status.incomplete) :=
  readInfo_working_status sWork ["f"] addedWork _ rfl rfl

/-! ## C6 — `scan_upwards_for_repos` -/

/-- C6 counterexample: in `sInherit` only the wcroot BASE row carries the
repository columns (`repos_relpath = ["trunk"]`), and the scan from
`a/b` strips `b` then `a`; because the loop appends each stripped basename
after the previous ones, the result is `trunk/b/a`, not the concatenation
`trunk/a/b` of the ancestor's `repos_relpath` with the stripped path
segments. -/
theorem scanUpwards_order_counterexample :
    scanUpwardsForRepos sInherit ["a", "b"] =
        .ok (1, ["trunk", "b", "a"]) ∧
      scanUpwardsForRepos sInherit ["a", "b"] ≠
        .ok (1, ["trunk", "a", "b"]) := by
  constructor
  · rfl
  · intro h
    rw [show scanUpwardsForRepos sInherit ["a", "b"] =
          .ok (1, ["trunk", "b", "a"]) from rfl] at h
    simp at h

theorem scanUpwardsLoop_eq (s : DbState) (orig rev suffix : Relpath) :
    scanUpwardsLoop s orig rev suffix =
      match s.base rev.reverse with
      | none =>
          if suffix ≠ [] ∨ orig = [] then .error .wcCorrupt
          else .error .wcPathNotFound
      | some row =>
          match row.reposId with
          | some rid =>
              match row.reposRelpath with
              | none => .error .assertionFail
              | some rrel => .ok (rid, rrel ++ suffix)
          | none =>
              match rev with
              | [] => .error .wcCorrupt
              | b :: rest => scanUpwardsLoop s orig rest (suffix ++ [b]) := by
  cases rev <;> rfl

theorem scanLoop_found (s : DbState) (orig : Relpath) (strip : Relpath) :
    ∀ (ancRev suffix : Relpath) (row : BaseNode) (rid : Nat) (rrel : Relpath),
      s.base ancRev.reverse = some row →
      row.reposId = some rid →
      row.reposRelpath = some rrel →
      (∀ v w : Relpath, strip = v ++ w → w ≠ [] →
        ∃ r, s.base (w ++ ancRev).reverse = some r ∧ r.reposId = none) →
      scanUpwardsLoop s orig (strip ++ ancRev) suffix =
        .ok (rid, rrel ++ (suffix ++ strip)) := by
  induction strip with
  | nil =>
      intro ancRev suffix row rid rrel hrow hrid hrrel _
      rw [scanUpwardsLoop_eq]
      dsimp only [List.nil_append]
      rw [hrow]
      dsimp only
      rw [hrid]
      dsimp only
      rw [hrrel]
      simp
  | cons b rest ih =>
      intro ancRev suffix row rid rrel hrow hrid hrrel hmid
      obtain ⟨r0, hr0, hr0id⟩ := hmid [] (b :: rest) rfl (by simp)
      have hstep : scanUpwardsLoop s orig ((b :: rest) ++ ancRev) suffix =
          scanUpwardsLoop s orig (rest ++ ancRev) (suffix ++ [b]) := by
        rw [scanUpwardsLoop_eq]
        dsimp only [List.cons_append] at hr0 ⊢
        rw [hr0]
        dsimp only
        rw [hr0id]
      rw [hstep, ih ancRev (suffix ++ [b]) row rid rrel hrow hrid hrrel
        (fun v w hvw hw => hmid (b :: v) w (by rw [hvw]; rfl) hw)]
      simp

theorem scanLoop_corrupt (s : DbState) (orig : Relpath) (rev : Relpath) :
    ∀ suffix : Relpath,
      (∀ v w : Relpath, rev = v ++ w →
        ∃ r, s.base w.reverse = some r ∧ r.reposId = none) →
      scanUpwardsLoop s orig rev suffix = .error .wcCorrupt := by
  induction rev with
  | nil =>
      intro suffix hall
      obtain ⟨r, hr, hrid⟩ := hall [] [] rfl
      rw [scanUpwardsLoop_eq]
      rw [hr]
      dsimp only
      rw [hrid]
  | cons b rest ih =>
      intro suffix hall
      obtain ⟨r, hr, hrid⟩ := hall [] (b :: rest) rfl
      rw [scanUpwardsLoop_eq]
      rw [hr]
      dsimp only
      rw [hrid]
      dsimp only
      exact ih (suffix ++ [b])
        (fun v w hvw => hall (b :: v) w (by rw [hvw]; rfl))

/-- C6 as amended: for every path `anc ++ segs` whose BASE row at `anc`
carries the repository columns while every node strictly below `anc` on the
path has a BASE row with null repository columns, `scan_upwards_for_repos`
returns that ancestor's `repos_id` together with its `repos_relpath` joined
with the stripped path segments in the order they were stripped — deepest
segment first, i.e. `segs` reversed; and when every row down to the wcroot
root (the path itself included) lacks repository info, it fails with
`wc_corrupt`. -/
theorem scanUpwardsForRepos_characterization :
    (∀ (s : DbState) (anc segs : Relpath) (row : BaseNode) (rid : Nat)
        (rrel : Relpath),
      s.base anc = some row →
      row.reposId = some rid →
      row.reposRelpath = some rrel →
      (∀ t u : Relpath, segs = t ++ u → t ≠ [] →
        ∃ r, s.base (anc ++ t) = some r ∧ r.reposId = none) →
      scanUpwardsForRepos s (anc ++ segs) =
        .ok (rid, rrel ++ segs.reverse)) ∧
      (∀ (s : DbState) (p : Relpath),
        (∀ t u : Relpath, p = t ++ u →
          ∃ r, s.base t = some r ∧ r.reposId = none) →
        scanUpwardsForRepos s p = .error .wcCorrupt) := by
  constructor
  · intro s anc segs row rid rrel hrow hrid hrrel hmid
    unfold scanUpwardsForRepos
    rw [List.reverse_append]
    have hmain := scanLoop_found s (anc ++ segs) segs.reverse anc.reverse []
      row rid rrel (by rwa [List.reverse_reverse]) hrid hrrel ?_
    · rw [hmain]
      simp
    · intro v w hvw hw
      have hsegs : segs = w.reverse ++ v.reverse := by
        have := congrArg List.reverse hvw
        simpa [List.reverse_append] using this
      obtain ⟨r, hr, hrid'⟩ := hmid w.reverse v.reverse hsegs
        (by simpa using hw)
      refine ⟨r, ?_, hrid'⟩
      rwa [List.reverse_append, List.reverse_reverse]
  · intro s p hall
    unfold scanUpwardsForRepos
    apply scanLoop_corrupt
    intro v w hvw
    refine hall w.reverse v.reverse ?_
    have := congrArg List.reverse hvw
    simpa [List.reverse_append] using this

theorem scanUpwardsForRepos_characterization_witness :
    scanUpwardsForRepos sInherit ([] ++ ["a", "b"]) =
      .ok (1, ["trunk"] ++ (["a", "b"] : Relpath).reverse) :=
  scanUpwardsForRepos_characterization.1 sInherit [] ["a", "b"] rootBase 1
    ["trunk"] rfl rfl rfl
    (by
      intro t u h ht
      rcases t with _ | ⟨x, t⟩
      · exact absurd rfl ht
      rcases t with _ | ⟨y, t⟩
      · cases h
        exact ⟨noRepoBase, rfl, rfl⟩
      rcases t with _ | ⟨z, t⟩
      · cases h
        exact ⟨noRepoBase, rfl, rfl⟩
      · simp at h)

/-! ## C1 — `global_commit` -/

/-- Arguments for a commit whose date is zero (`apr_time_t` 0): exercised
by the C1 counterexample, since `commit_node` binds the date column only
when the new date is positive. -/
def argsC1Zero : CommitArgs :=
  { newRevision := 8, newDate := 0, newAuthor := some "carol",
    newChecksum := some ⟨ChecksumKind.sha1, "ab"⟩, newChildren := none,
    newDavCache := none, keepChangelist := false }

/-- The state `global_commit` produces from `sBaseA` at `a` with
`argsC1Zero`. -/
def c1ZeroOut : DbState :=
  applyChangesToBase sBaseA ["a"] Kind.file 1 ["trunk", "a"] argsC1Zero
    (commitDepth sBaseA ["a"]) (commitPropBlob sBaseA ["a"])

/-- C1 counterexample: a commit with `new_date = 0` succeeds — the BASE
row gets the new revision and normal presence and the WORKING row is
absent — but the row does NOT carry the new date: `commit_node` binds the
`changed_date` column only when `new_date > 0`, so the stored date is
NULL rather than the supplied date. -/
theorem globalCommit_date_counterexample :
    globalCommit sBaseA ["a"] argsC1Zero = .ok c1ZeroOut ∧
      c1ZeroOut.working ["a"] = none ∧
      (c1ZeroOut.base ["a"]).map (·.revision) =
        some argsC1Zero.newRevision ∧
      (c1ZeroOut.base ["a"]).map (·.presence) = some Status.normal ∧
      (c1ZeroOut.base ["a"]).map (·.changedDate) = some none ∧
      (c1ZeroOut.base ["a"]).map (·.changedDate) ≠
        some (some argsC1Zero.newDate) := by
  refine ⟨rfl, rfl, rfl, rfl, rfl, ?_⟩
  intro h
  rw [show (c1ZeroOut.base ["a"]).map (·.changedDate) = some none
        from rfl] at h
  simp at h

/-- C1 as amended: after a successful `global_commit(P, new_rev, ...)`,
the BASE row for `P` exists with `revision = new_rev` and
`presence = normal`, carrying the new author, checksum, depth and
dav_cache, and the new date when it is positive (a non-positive date is
stored as NULL); the WORKING row for `P` is absent. -/
theorem globalCommit_base_updated (s : DbState) (p : Relpath)
    (args : CommitArgs) (s' : DbState)
    (h : globalCommit s p args = .ok s') :
    s'.working p = none ∧
      (s'.base p).map (·.revision) = some args.newRevision ∧
      (s'.base p).map (·.presence) = some Status.normal ∧
      (s'.base p).map (·.changedAuthor) = some args.newAuthor ∧
      (s'.base p).map (·.changedDate) =
        some (if 0 < args.newDate then some args.newDate else none) ∧
      (s'.base p).map (·.checksum) = some args.newChecksum ∧
      (s'.base p).map (·.depth) = some (commitDepth s p) ∧
      (s'.base p).map (·.davCache) = some args.newDavCache := by
  unfold globalCommit at h
  split at h
  · cases h
  · split at h
    · cases h
    · split at h
      · cases h
      · rename_i pr heq
        unfold commitNode at h
        split at h
        · cases h
        · rename_i newKind hkind
          split at h
          · cases h
          · split at h
            · cases h
            · dsimp only at h
              rw [Except.ok.injEq] at h
              subst h
              rcases hact : s.actual p with _ | a <;>
                rcases hwq : s.working p with _ | w
              all_goals simp only [hact, hwq, Option.isSome_none,
                Option.isSome_some, Bool.false_eq_true, if_false, if_true]
              all_goals repeat' split
              all_goals simp [applyChangesToBase, DbState.setBase,
                DbState.setWorking, DbState.setActual,
                resetActualWithChangelist, hwq]
              all_goals omega

/-- Arguments for the concrete commit exercised by the C1 witness. -/
def argsC1 : CommitArgs :=
  { newRevision := 8, newDate := 5, newAuthor := some "carol",
    newChecksum := some ⟨ChecksumKind.sha1, "ab"⟩, newChildren := none,
    newDavCache := none, keepChangelist := false }

/-- The state `global_commit` produces from `sBaseA` at `a` with `argsC1`. -/
def c1Out : DbState :=
  applyChangesToBase sBaseA ["a"] Kind.file 1 ["trunk", "a"] argsC1
    (commitDepth sBaseA ["a"]) (commitPropBlob sBaseA ["a"])

theorem globalCommit_base_updated_witness :
    c1Out.working ["a"] = none ∧
      (c1Out.base ["a"]).map (·.revision) = some argsC1.newRevision ∧
      (c1Out.base ["a"]).map (·.presence) = some Status.normal ∧
      (c1Out.base ["a"]).map (·.changedAuthor) = some argsC1.newAuthor ∧
      (c1Out.base ["a"]).map (·.changedDate) =
        some (if 0 < argsC1.newDate then some argsC1.newDate else none) ∧
      (c1Out.base ["a"]).map (·.checksum) = some argsC1.newChecksum ∧
      (c1Out.base ["a"]).map (·.depth) = some (commitDepth sBaseA ["a"]) ∧
      (c1Out.base ["a"]).map (·.davCache) = some argsC1.newDavCache :=
  globalCommit_base_updated sBaseA ["a"] argsC1 c1Out rfl

end WcDb
